import Mathlib

/-!
Shallow embedding of the pocket task-graph execution engine.

The repository carries three near-identical implementations of the core:

* namespace FW — src/src/pocket-flow-framework.ts
  (BaseNode / RetryNode / Flow / BatchFlow, promise-based)
* namespace PG — src/pocketgraph/__init__.ts
  (BaseNode / Node / Flow / BatchFlow, synchronous)
* namespace TSA — src/typescript/nodes.ts
  (AsyncNode / AsyncFlow / AsyncBatchFlow)

Actions (outcome labels) are strings; parameter sets are string-keyed maps,
modelled as association lists whose lookup takes the first matching binding;
successor tables map an action to the identifier of the successor node.
Node behaviour is a function from the pushed parameter set and the shared
state to either a thrown error or an outcome label (possibly undefined,
modelled as none) together with the updated shared state.
-/

abbrev ActionLabel := String

abbrev Err := String

abbrev Params := List (String × Int)

def lookupParam : Params → String → Option Int
  | [], _ => none
  | (k, v) :: rest, key => if k = key then some v else lookupParam rest key

/-- JS object spread, as in the sources: the result of spreading parent then
child binds every key of either map, and a child binding shadows a parent
binding for the same key.  With first-match association-list lookup this is
exactly child ++ parent. -/
def mergeParams (parent child : Params) : Params := child ++ parent

abbrev SuccTable := List (ActionLabel × Nat)

def lookupSucc : SuccTable → ActionLabel → Option Nat
  | [], _ => none
  | (a, nid) :: rest, act => if a = act then some nid else lookupSucc rest act

/-- A node of a wired graph: its run behaviour (the composition of the three
lifecycle phases) and its successor table.  Node identity is a Nat; a graph
maps every identifier to a node. -/
structure FNode (σ : Type) where
  run : Params → σ → Except Err (Option ActionLabel × σ)
  succ : SuccTable

abbrev FGraph (σ : Type) := Nat → FNode σ

namespace FW

def DEFAULT_ACTION : ActionLabel := "default"

/-- BaseNode.addSuccessor (pocket-flow-framework.ts, lines 27-34): if the
action is already registered it throws; otherwise it installs the successor.
The pair holds the outcome of the call and the successor table afterwards:
the throw happens before the set, so on the error branch the table is the
unchanged original. -/
def addSuccessor (t : SuccTable) (nid : Nat) (action : ActionLabel) :
    Except Err Unit × SuccTable :=
  if (lookupSucc t action).isSome then
    (Except.error ("Action " ++ action ++ " already exists"), t)
  else
    (Except.ok (), t ++ [(action, nid)])

/-- Loop body of RetryNode.execWrapper (lines 91-101): for i in
0..maxRetries-1 try execCore; a success returns it, a failure waits and
retries; once the loop is exhausted it throws the max-retries error built
from this.maxRetries.  execCore is indexed by the attempt number so that a
stateful node whose outcome differs between attempts (such as the
FlakyRetryNode of the tests) is expressible.  The second component counts
the execCore invocations made. -/
def retryGo {β : Type} (execCore : Nat → Except Err β) (maxRetries : Nat) :
    Nat → Nat → Except Err β × Nat
  | _, 0 =>
      (Except.error
        ("Max retries reached after " ++ toString maxRetries ++ " attempts"), 0)
  | i, rem + 1 =>
      match execCore i with
      | Except.ok b => (Except.ok b, 1)
      | Except.error _ =>
          let r := retryGo execCore maxRetries (i + 1) rem
          (r.1, r.2 + 1)

/-- RetryNode.execWrapper: run the retry loop from attempt 0 with
maxRetries attempts allowed. -/
def execWrapper {β : Type} (maxRetries : Nat) (execCore : Nat → Except Err β) :
    Except Err β × Nat :=
  retryGo execCore maxRetries 0 maxRetries

/-- BaseNode.getSuccessor (lines 36-43), at the level of node identifiers.
The action produced by a run may at runtime be undefined (none); the Map
holds only string keys installed by addSuccessor, so Map.has(undefined) is
false and the lookup yields nothing.  A present action is looked up as is.
(The source also clones the found successor; identity of the chosen node is
what matters here, the per-run copy is modelled separately.) -/
def getSuccessorA (t : SuccTable) : Option ActionLabel → Option Nat
  | none => none
  | some a => lookupSucc t a

/-- The parameter set pushed into the current node by Flow.orchestrate
(line 135): flowParams if the optional argument was supplied, else the
orchestrator's own flow_params. -/
def effectiveParams (selfParams : Params) : Option Params → Params
  | some fp => fp
  | none => selfParams

/-- Flow.orchestrate (lines 131-139): start from the start node and loop —
push the effective parameter set, run the node, look up the successor under
the returned action, advance; an absent successor ends the loop.  The source
loop is unbounded (cycles are legal), so the model takes fuel: none means
the fuel ran out, some (ok s) is normal termination with final shared state
s, some (error e) is a failure propagated out of a node run. -/
def orchestrate {σ : Type} (g : FGraph σ) (selfParams : Params)
    (flowParams : Option Params) :
    Nat → Option Nat → σ → Option (Except Err σ)
  | _, none, s => some (Except.ok s)
  | 0, some _, _ => none
  | fuel + 1, some nid, s =>
      match (g nid).run (effectiveParams selfParams flowParams) s with
      | Except.error e => some (Except.error e)
      | Except.ok (a, s1) =>
          orchestrate g selfParams flowParams fuel
            (getSuccessorA (g nid).succ a) s1

/-- Flow.run (lines 141-148): prep (pass-through), orchestrate with no
explicit flowParams, then Flow.post (lines 150-152) which always returns
DEFAULT_ACTION. -/
def flowRun {σ : Type} (g : FGraph σ) (startId : Nat) (selfParams : Params)
    (fuel : Nat) (s : σ) : Option (Except Err (Option ActionLabel × σ)) :=
  match orchestrate g selfParams none fuel (some startId) s with
  | none => none
  | some (Except.error e) => some (Except.error e)
  | some (Except.ok s1) => some (Except.ok (some DEFAULT_ACTION, s1))

/-- A Flow wired as a node of a parent graph.  The parent traversal pushes a
parameter set into the nested flow via setParams and calls run, so the
nested orchestrate resolves its effective parameters to exactly that set;
run ends with Flow.post, which returns DEFAULT_ACTION.  Fuel exhaustion of
the inner loop surfaces as an error — a modelling artifact standing for the
unbounded source loop not returning. -/
def asNode {σ : Type} (g : FGraph σ) (startId : Nat) (fuel : Nat)
    (succ : SuccTable) : FNode σ where
  run := fun p s =>
    match orchestrate g p none fuel (some startId) s with
    | none => Except.error "fuel exhausted"
    | some (Except.error e) => Except.error e
    | some (Except.ok s1) => Except.ok (some DEFAULT_ACTION, s1)
  succ := succ

end FW

namespace PG

/-- BaseNode.addSuccessor (pocketgraph/__init__.ts, lines 29-35): if a
successor is already registered under the action it only warns
(console.warn, non-fatal), then unconditionally sets the binding —
the previous successor is overwritten. -/
def addSuccessor : SuccTable → Nat → ActionLabel → SuccTable
  | [], nid, action => [(action, nid)]
  | (a, m) :: rest, nid, action =>
      if a = action then (action, nid) :: rest
      else (a, m) :: addSuccessor rest nid action

/-- The JS expression action || "default" used by Flow.getNextNode: an
undefined action and the empty string are falsy, so both fall back to
"default". -/
def jsOrDefault : Option ActionLabel → ActionLabel
  | none => "default"
  | some a => if a = "" then "default" else a

/-- Flow.getNextNode (lines 165-173): look up the successor of the current
node under action || "default"; when nothing is found and successors are
nonempty it only warns (non-fatal). -/
def getNextNode (t : SuccTable) (a : Option ActionLabel) : Option Nat :=
  lookupSucc t (jsOrDefault a)

/-- Loop body of Node._exec (lines 128-142): for curRetry in
0..maxRetries-1 try exec; a success returns it; on failure at the last
allowed attempt return execFallback(prepRes, error), whose default (no
fallback supplied, lines 124-126) re-throws the original error; otherwise
sleep and retry.  If the loop finishes without returning (only possible
when maxRetries = 0) the JS function returns undefined, modelled as none.
The second component counts the exec invocations made. -/
def execGo {β : Type} (exec : Nat → Except Err β) (maxRetries : Nat) :
    Nat → Nat → Option (Except Err β) × Nat
  | _, 0 => (none, 0)
  | i, rem + 1 =>
      match exec i with
      | Except.ok b => (some (Except.ok b), 1)
      | Except.error e =>
          if i = maxRetries - 1 then
            (some (Except.error e), 1)
          else
            let r := execGo exec maxRetries (i + 1) rem
            (r.1, r.2 + 1)

/-- Node._exec of a node with no fallback supplied: the retry loop from
curRetry = 0 with maxRetries attempts allowed. -/
def nodeExec {β : Type} (maxRetries : Nat) (exec : Nat → Except Err β) :
    Option (Except Err β) × Nat :=
  execGo exec maxRetries 0 maxRetries

/-- Flow._orch (lines 175-197): shallow-copy the start node, resolve the
parameter set (params ?? a spread of this.params — resolved by the caller
here and constant through the loop), then loop: setParams, _run, getNextNode
on the returned action, advance to a fresh copy or stop.  Fuel as in
FW.orchestrate. -/
def orch {σ : Type} (g : FGraph σ) (p : Params) :
    Nat → Option Nat → σ → Option (Except Err σ)
  | _, none, s => some (Except.ok s)
  | 0, some _, _ => none
  | fuel + 1, some nid, s =>
      match (g nid).run p s with
      | Except.error e => some (Except.error e)
      | Except.ok (a, s1) =>
          orch g p fuel (getNextNode (g nid).succ a) s1

/-- The parameter set a BatchFlow._run iteration (lines 214-220) hands to
_orch for batch item bp: the spread of this.params then bp. -/
def batchItemParams (selfParams bp : Params) : Params :=
  mergeParams selfParams bp

end PG

namespace TSA

/-- AsyncFlow._orchAsync (typescript/nodes.ts, lines 187-204): mergedParams
is the spread of this.params then params when params was passed, else a copy
of this.params alone. -/
def mergedParams (selfParams : Params) : Option Params → Params
  | some ps => mergeParams selfParams ps
  | none => selfParams

/-- AsyncFlow.getNextNode (lines 179-185): successor lookup under
action || "default", as in the pocketgraph variant. -/
def getNextNode (t : SuccTable) (a : Option ActionLabel) : Option Nat :=
  lookupSucc t (PG.jsOrDefault a)

end TSA

/-!
Object-identity model for the per-run isolation copies (claim C7).
Parameter objects live in a heap addressed by Nat; a node holds the address
of its params object and its successor table.  Writing through an address
mutates the object every holder of that address sees.
-/

abbrev Heap := Nat → Params

def heapWrite (h : Heap) (r : Nat) (p : Params) : Heap :=
  fun x => if x = r then p else h x

structure ONode where
  paramsRef : Nat
  succ : SuccTable

namespace FW

/-- BaseNode.clone (pocket-flow-framework.ts, lines 18-23): the new node
gets flow_params := cloneDeep(this.flow_params) — a fresh object (address
fresh) holding a copy of the contents — and successors := new Map of the
same entries, so every label maps to the identical successor. -/
def clone (h : Heap) (o : ONode) (fresh : Nat) : Heap × ONode :=
  (heapWrite h fresh (h o.paramsRef),
   { paramsRef := fresh, succ := o.succ })

end FW

namespace PG

/-- The per-run copy taken by Flow._orch (lines 176-180 and 188-191):
Object.assign(Object.create(prototype), node) copies own properties by
reference, so the copy holds the very same params object (same address)
and the very same successors object. -/
def shallowCopy (o : ONode) : ONode :=
  { paramsRef := o.paramsRef, succ := o.succ }

end PG

/-!
Scheduling traces for the batch orchestrators (claim C1).  An event marks
the start or the completion of the orchestrate traversal for batch item i.
-/

inductive BatchEv where
  | start (i : Nat)
  | complete (i : Nat)
deriving DecidableEq

/-- Position of the first occurrence of an event in a trace (length of the
trace when absent). -/
def evIdx (e : BatchEv) : List BatchEv → Nat
  | [] => 0
  | x :: xs => if x = e then 0 else evIdx e xs + 1

/-- Iterations are strictly sequential when the traversal for item i+1
starts only after the traversal for item i has completed. -/
def strictlySequential (tr : List BatchEv) (n : Nat) : Prop :=
  ∀ i, i + 1 < n →
    evIdx (BatchEv.complete i) tr < evIdx (BatchEv.start (i + 1)) tr

namespace FW

/-- Scheduling trace of BatchFlow.run (pocket-flow-framework.ts, lines
161-173) over n prep results.  The for loop (lines 166-169) calls
this.orchestrate(sharedState, prepResult) for every item without awaiting
it: each call runs synchronously only up to its first await and is pushed
as a pending promise, so the loop emits start 0, ..., start (n-1) during
run's first synchronous segment.  Completions are observed by the single
await Promise.all (line 170), which resolves only in later event-loop
turns, after every traversal has been started.  (The repository's own
BatchFlow test relies on this overlap: forty items whose delays sum to over
a minute must finish in under three seconds.) -/
def batchRunTrace (n : Nat) : List BatchEv :=
  ((List.range n).map BatchEv.start) ++ ((List.range n).map BatchEv.complete)

end FW

namespace PG

/-- Scheduling trace of BatchFlow._run (pocketgraph/__init__.ts, lines
214-220): a synchronous for loop calls this._orch once per batch item, so
each traversal starts and runs to completion before the next begins. -/
def batchTrace : Nat → List BatchEv
  | 0 => []
  | n + 1 => batchTrace n ++ [BatchEv.start n, BatchEv.complete n]

end PG

/-!
The concrete math-flow nodes of tests/pocket.test.ts (claim C8).  The
shared state is the test object with a numeric field value, modelled as
some v while present and numeric, none otherwise.  Each node follows
BaseNode.run: prep, then execWrapper (the default one, which is execCore),
then post.
-/

structure Phased (σ α β : Type) where
  prep : Params → σ → Except Err (α × σ)
  execCore : Params → α → Except Err β
  post : Params → α → β → σ → Except Err (Option ActionLabel × σ)

/-- BaseNode.run (pocket-flow-framework.ts, lines 72-78): prep, execWrapper
(defaulting to execCore), post; a failure of any phase propagates. -/
def runPhased {σ α β : Type} (n : Phased σ α β) (p : Params) (s : σ) :
    Except Err (Option ActionLabel × σ) :=
  match n.prep p s with
  | Except.error e => Except.error e
  | Except.ok (pr, s1) =>
      match n.execCore p pr with
      | Except.error e => Except.error e
      | Except.ok er => n.post p pr er s1

abbrev MathShared := Option Int

namespace FW

/-- AddNode of the tests: prep demands a numeric value, adds the addend in
place and returns the shared object; execCore returns prepResult.value;
post returns DEFAULT_ACTION. -/
def addNode (addend : Int) : Phased MathShared MathShared (Option Int) where
  prep := fun _ s =>
    match s with
    | none => Except.error "Shared state does not have a numeric value"
    | some v => Except.ok (some (v + addend), some (v + addend))
  execCore := fun _ pr => Except.ok pr
  post := fun _ _ _ s => Except.ok (some DEFAULT_ACTION, s)

/-- MultiplyNode of the tests: as AddNode with value *= factor. -/
def multiplyNode (factor : Int) : Phased MathShared MathShared (Option Int) where
  prep := fun _ s =>
    match s with
    | none => Except.error "Shared state does not have a numeric value"
    | some v => Except.ok (some (v * factor), some (v * factor))
  execCore := fun _ pr => Except.ok pr
  post := fun _ _ _ s => Except.ok (some DEFAULT_ACTION, s)

/-- SubtractNode of the tests: as AddNode with value -= decrement. -/
def subtractNode (decrement : Int) : Phased MathShared MathShared (Option Int) where
  prep := fun _ s =>
    match s with
    | none => Except.error "Shared state does not have a numeric value"
    | some v => Except.ok (some (v - decrement), some (v - decrement))
  execCore := fun _ pr => Except.ok pr
  post := fun _ _ _ s => Except.ok (some DEFAULT_ACTION, s)

/-- The wiring of the math-flow test (tests/pocket.test.ts, lines 200-216):
AddNode 5 at 0 with default successor MultiplyNode 2 at 1, whose default
successor is SubtractNode 3 at 2, which has no successors.  Identifiers
past 2 are unreachable filler. -/
def mathGraph : FGraph MathShared := fun nid =>
  if nid = 0 then
    { run := runPhased (addNode 5), succ := [("default", 1)] }
  else if nid = 1 then
    { run := runPhased (multiplyNode 2), succ := [("default", 2)] }
  else
    { run := runPhased (subtractNode 3), succ := [] }

end FW

/-! Helper lemmas about event positions in traces. -/

theorem evIdx_append_left (e : BatchEv) (l1 l2 : List BatchEv) (h : e ∈ l1) :
    evIdx e (l1 ++ l2) = evIdx e l1 := by
  induction l1 with
  | nil => exact absurd h (List.not_mem_nil e)
  | cons x xs ih =>
      by_cases hx : x = e
      · simp [evIdx, hx]
      · have hm : e ∈ xs := by
          rcases List.mem_cons.mp h with h1 | h2
          · exact absurd h1.symm hx
          · exact h2
        simp [evIdx, hx, ih hm]

theorem evIdx_append_right (e : BatchEv) (l1 l2 : List BatchEv) (h : e ∉ l1) :
    evIdx e (l1 ++ l2) = l1.length + evIdx e l2 := by
  induction l1 with
  | nil => simp [evIdx]
  | cons x xs ih =>
      have hx : x ≠ e := fun hh => h (hh ▸ List.mem_cons_self x xs)
      have hm : e ∉ xs := fun hh => h (List.mem_cons_of_mem x hh)
      simp [evIdx, hx, ih hm]
      omega

theorem start_mem_map_range (i n : Nat) (h : i < n) :
    BatchEv.start i ∈ (List.range n).map BatchEv.start :=
  List.mem_map.mpr ⟨i, List.mem_range.mpr h, rfl⟩

theorem start_not_mem_map_range (i n : Nat) (h : n ≤ i) :
    BatchEv.start i ∉ (List.range n).map BatchEv.start := by
  intro hmem
  rcases List.mem_map.mp hmem with ⟨b, hb, hbe⟩
  have hbi : b = i := by
    injection hbe
  exact absurd (List.mem_range.mp hb) (by omega)

theorem complete_not_mem_map_start (j n : Nat) :
    BatchEv.complete j ∉ (List.range n).map BatchEv.start := by
  intro hmem
  rcases List.mem_map.mp hmem with ⟨b, _, hbe⟩
  exact BatchEv.noConfusion hbe

theorem complete_mem_map_range (i n : Nat) (h : i < n) :
    BatchEv.complete i ∈ (List.range n).map BatchEv.complete :=
  List.mem_map.mpr ⟨i, List.mem_range.mpr h, rfl⟩

theorem evIdx_start_map_range (i n : Nat) (h : i < n) :
    evIdx (BatchEv.start i) ((List.range n).map BatchEv.start) = i := by
  induction n with
  | zero => omega
  | succ m ih =>
      rw [List.range_succ, List.map_append]
      by_cases hi : i < m
      · rw [evIdx_append_left _ _ _ (start_mem_map_range i m hi)]
        exact ih hi
      · have him : i = m := by omega
        subst him
        rw [evIdx_append_right _ _ _ (start_not_mem_map_range i i le_rfl)]
        simp [evIdx]

theorem evIdx_complete_map_range (i n : Nat) (h : i < n) :
    evIdx (BatchEv.complete i) ((List.range n).map BatchEv.complete) = i := by
  induction n with
  | zero => omega
  | succ m ih =>
      rw [List.range_succ, List.map_append]
      by_cases hi : i < m
      · rw [evIdx_append_left _ _ _ (complete_mem_map_range i m hi)]
        exact ih hi
      · have him : i = m := by omega
        subst him
        have hnm : BatchEv.complete i ∉ (List.range i).map BatchEv.complete := by
          intro hmem
          rcases List.mem_map.mp hmem with ⟨b, hb, hbe⟩
          have hbi : b = i := by injection hbe
          exact absurd (List.mem_range.mp hb) (by omega)
        rw [evIdx_append_right _ _ _ hnm]
        simp [evIdx]

theorem evIdx_fw_start (i n : Nat) (h : i < n) :
    evIdx (BatchEv.start i) (FW.batchRunTrace n) = i := by
  rw [FW.batchRunTrace, evIdx_append_left _ _ _ (start_mem_map_range i n h)]
  exact evIdx_start_map_range i n h

theorem evIdx_fw_complete (j n : Nat) (h : j < n) :
    evIdx (BatchEv.complete j) (FW.batchRunTrace n) = n + j := by
  rw [FW.batchRunTrace, evIdx_append_right _ _ _ (complete_not_mem_map_start j n)]
  rw [List.length_map, List.length_range]
  rw [evIdx_complete_map_range j n h]

theorem pg_batchTrace_mem_start (i n : Nat) (h : i < n) :
    BatchEv.start i ∈ PG.batchTrace n := by
  induction n with
  | zero => omega
  | succ m ih =>
      rw [PG.batchTrace]
      by_cases hi : i < m
      · exact List.mem_append_left _ (ih hi)
      · have him : i = m := by omega
        subst him
        exact List.mem_append_right _ (by simp)

theorem pg_batchTrace_mem_complete (i n : Nat) (h : i < n) :
    BatchEv.complete i ∈ PG.batchTrace n := by
  induction n with
  | zero => omega
  | succ m ih =>
      rw [PG.batchTrace]
      by_cases hi : i < m
      · exact List.mem_append_left _ (ih hi)
      · have him : i = m := by omega
        subst him
        exact List.mem_append_right _ (by simp)

theorem pg_batchTrace_not_mem_start (i n : Nat) (h : n ≤ i) :
    BatchEv.start i ∉ PG.batchTrace n := by
  induction n with
  | zero => simp [PG.batchTrace]
  | succ m ih =>
      rw [PG.batchTrace]
      intro hmem
      rcases List.mem_append.mp hmem with h1 | h2
      · exact ih (by omega) h1
      · rcases List.mem_cons.mp h2 with h3 | h4
        · have : i = m := by injection h3
          omega
        · rcases List.mem_cons.mp h4 with h5 | h6
          · exact BatchEv.noConfusion h5
          · exact absurd h6 (List.not_mem_nil _)

theorem pg_batchTrace_not_mem_complete (i n : Nat) (h : n ≤ i) :
    BatchEv.complete i ∉ PG.batchTrace n := by
  induction n with
  | zero => simp [PG.batchTrace]
  | succ m ih =>
      rw [PG.batchTrace]
      intro hmem
      rcases List.mem_append.mp hmem with h1 | h2
      · exact ih (by omega) h1
      · rcases List.mem_cons.mp h2 with h3 | h4
        · exact BatchEv.noConfusion h3
        · rcases List.mem_cons.mp h4 with h5 | h6
          · have : i = m := by injection h5
            omega
          · exact absurd h6 (List.not_mem_nil _)

theorem pg_batchTrace_length (n : Nat) : (PG.batchTrace n).length = 2 * n := by
  induction n with
  | zero => rfl
  | succ m ih =>
      rw [PG.batchTrace]
      simp [ih]
      omega

theorem evIdx_pg_start (i n : Nat) (h : i < n) :
    evIdx (BatchEv.start i) (PG.batchTrace n) = 2 * i := by
  induction n with
  | zero => omega
  | succ m ih =>
      rw [PG.batchTrace]
      by_cases hi : i < m
      · rw [evIdx_append_left _ _ _ (pg_batchTrace_mem_start i m hi)]
        exact ih hi
      · have him : i = m := by omega
        subst him
        rw [evIdx_append_right _ _ _ (pg_batchTrace_not_mem_start i i le_rfl)]
        rw [pg_batchTrace_length]
        simp [evIdx]

theorem evIdx_pg_complete (i n : Nat) (h : i < n) :
    evIdx (BatchEv.complete i) (PG.batchTrace n) = 2 * i + 1 := by
  induction n with
  | zero => omega
  | succ m ih =>
      rw [PG.batchTrace]
      by_cases hi : i < m
      · rw [evIdx_append_left _ _ _ (pg_batchTrace_mem_complete i m hi)]
        exact ih hi
      · have him : i = m := by omega
        subst him
        rw [evIdx_append_right _ _ _ (pg_batchTrace_not_mem_complete i i le_rfl)]
        rw [pg_batchTrace_length]
        simp [evIdx]

/-! Helper lemmas about the retry loops. -/

theorem fw_retryGo_all_fail {β : Type} (e : Nat → Except Err β) (m : Nat) :
    ∀ rem i, (∀ j, j < rem → ∃ msg, e (i + j) = Except.error msg) →
    FW.retryGo e m i rem =
      (Except.error ("Max retries reached after " ++ toString m ++ " attempts"),
       rem) := by
  intro rem
  induction rem with
  | zero => intro i _; rfl
  | succ r ih =>
      intro i hfail
      obtain ⟨msg, hmsg⟩ := hfail 0 (Nat.succ_pos r)
      rw [Nat.add_zero] at hmsg
      have ihr := ih (i + 1) (fun j hj => by
        obtain ⟨msg2, hmsg2⟩ := hfail (j + 1) (by omega)
        exact ⟨msg2, by rw [show i + 1 + j = i + (j + 1) by omega]; exact hmsg2⟩)
      simp [FW.retryGo, hmsg, ihr]

theorem fw_retryGo_success {β : Type} (e : Nat → Except Err β) (m : Nat) (b : β) :
    ∀ f i rem, f < rem →
    (∀ j, j < f → ∃ msg, e (i + j) = Except.error msg) →
    e (i + f) = Except.ok b →
    FW.retryGo e m i rem = (Except.ok b, f + 1) := by
  intro f
  induction f with
  | zero =>
      intro i rem hlt _ hsucc
      rw [Nat.add_zero] at hsucc
      match rem, hlt with
      | r + 1, _ => simp [FW.retryGo, hsucc]
  | succ f ih =>
      intro i rem hlt hfail hsucc
      match rem, hlt with
      | r + 1, hlt =>
        obtain ⟨msg, hmsg⟩ := hfail 0 (Nat.succ_pos f)
        rw [Nat.add_zero] at hmsg
        have ihr := ih (i + 1) r (by omega)
          (fun j hj => by
            obtain ⟨msg2, hmsg2⟩ := hfail (j + 1) (by omega)
            exact ⟨msg2, by rw [show i + 1 + j = i + (j + 1) by omega]; exact hmsg2⟩)
          (by rw [show i + 1 + f = i + (f + 1) by omega]; exact hsucc)
        simp [FW.retryGo, hmsg, ihr]

theorem pg_execGo_all_fail {β : Type} (e : Nat → Except Err β) (m : Nat)
    (errAt : Nat → Err) (hfail : ∀ j, j < m → e j = Except.error (errAt j)) :
    ∀ rem i, i + rem = m → 1 ≤ rem →
    PG.execGo e m i rem = (some (Except.error (errAt (m - 1))), rem) := by
  intro rem
  induction rem with
  | zero => intro i _ h1; omega
  | succ r ih =>
      intro i hsum _
      have hlt : i < m := by omega
      have hmsg := hfail i hlt
      by_cases hr : r = 0
      · subst hr
        have hieq : i = m - 1 := by omega
        subst hieq
        simp [PG.execGo, hmsg]
      · have hne : ¬ i = m - 1 := by omega
        have ihr := ih (i + 1) (by omega) (by omega)
        simp [PG.execGo, hmsg, hne, ihr]

theorem pg_execGo_success {β : Type} (e : Nat → Except Err β) (m : Nat) (b : β) :
    ∀ f i rem, i + rem = m → f < rem →
    (∀ j, j < f → ∃ msg, e (i + j) = Except.error msg) →
    e (i + f) = Except.ok b →
    PG.execGo e m i rem = (some (Except.ok b), f + 1) := by
  intro f
  induction f with
  | zero =>
      intro i rem _ hlt _ hsucc
      rw [Nat.add_zero] at hsucc
      match rem, hlt with
      | r + 1, _ => simp [PG.execGo, hsucc]
  | succ f ih =>
      intro i rem hsum hlt hfail hsucc
      match rem, hlt with
      | r + 1, hlt =>
        obtain ⟨msg, hmsg⟩ := hfail 0 (Nat.succ_pos f)
        rw [Nat.add_zero] at hmsg
        have hne : ¬ i = m - 1 := by omega
        have ihr := ih (i + 1) r (by omega) (by omega)
          (fun j hj => by
            obtain ⟨msg2, hmsg2⟩ := hfail (j + 1) (by omega)
            exact ⟨msg2, by rw [show i + 1 + j = i + (j + 1) by omega]; exact hmsg2⟩)
          (by rw [show i + 1 + f = i + (f + 1) by omega]; exact hsucc)
        simp [PG.execGo, hmsg, hne, ihr]

/-! Association-list lookup over a spread-merge. -/

theorem lookupParam_append_some (xs ys : Params) (k : String) (v : Int)
    (h : lookupParam xs k = some v) : lookupParam (xs ++ ys) k = some v := by
  induction xs with
  | nil => simp [lookupParam] at h
  | cons p rest ih =>
      obtain ⟨a, w⟩ := p
      by_cases ha : a = k
      · simp [lookupParam, ha] at h ⊢
        exact h
      · simp [lookupParam, ha] at h ⊢
        exact ih h

theorem lookupParam_append_none (xs ys : Params) (k : String)
    (h : lookupParam xs k = none) : lookupParam (xs ++ ys) k = lookupParam ys k := by
  induction xs with
  | nil => rfl
  | cons p rest ih =>
      obtain ⟨a, w⟩ := p
      by_cases ha : a = k
      · simp [lookupParam, ha] at h
      · simp [lookupParam, ha] at h ⊢
        exact ih h

/-- PG.addSuccessor always installs the new successor under the action. -/
theorem pg_addSuccessor_lookup (t : SuccTable) (nid : Nat) (a : ActionLabel) :
    lookupSucc (PG.addSuccessor t nid a) a = some nid := by
  induction t with
  | nil => simp [PG.addSuccessor, lookupSucc]
  | cons p rest ih =>
      obtain ⟨x, m⟩ := p
      by_cases hx : x = a
      · simp [PG.addSuccessor, lookupSucc, hx]
      · simp [PG.addSuccessor, lookupSucc, hx, ih]

/-!
## Claim C1 — Batch Orchestrator sequencing

The claim: every Batch Orchestrator runs its orchestrate invocations
strictly sequentially, iteration i+1 starting only after iteration i has
fully completed.  This holds for the pocketgraph BatchFlow, whose _run is a
synchronous loop, but not for the framework BatchFlow.run, whose for loop
starts every orchestrate before any of them is awaited.
-/

/-- Claim C1, counterexample: in the framework BatchFlow.run over two batch
items, the traversal of item 1 starts before the traversal of item 0
completes, so the run is not strictly sequential. -/
theorem c1_counterexample : ¬ strictlySequential (FW.batchRunTrace 2) 2 := by
  intro h
  have h0 := h 0 (by norm_num)
  rw [evIdx_fw_complete 0 2 (by norm_num), evIdx_fw_start 1 2 (by norm_num)] at h0
  omega

/-- Claim C1, amended: the pocketgraph BatchFlow runs its orchestrate
invocations strictly sequentially over the shared state, iteration i+1
starting only after iteration i completes; the framework BatchFlow instead
starts every orchestrate invocation before any of them completes (fan-out
followed by a single join). -/
theorem c1_amended_batch_sequencing (n : Nat) :
    strictlySequential (PG.batchTrace n) n ∧
    ∀ i j, i < n → j < n →
      evIdx (BatchEv.start i) (FW.batchRunTrace n) <
        evIdx (BatchEv.complete j) (FW.batchRunTrace n) := by
  constructor
  · intro i hi
    rw [evIdx_pg_complete i n (by omega), evIdx_pg_start (i + 1) n hi]
    omega
  · intro i j hi hj
    rw [evIdx_fw_start i n hi, evIdx_fw_complete j n hj]
    omega

/-- Claim C1, witness: the amended statement at two batch items. -/
theorem c1_witness :
    evIdx (BatchEv.complete 0) (PG.batchTrace 2) <
      evIdx (BatchEv.start 1) (PG.batchTrace 2) ∧
    evIdx (BatchEv.start 1) (FW.batchRunTrace 2) <
      evIdx (BatchEv.complete 0) (FW.batchRunTrace 2) :=
  ⟨(c1_amended_batch_sequencing 2).1 0 (by norm_num),
   (c1_amended_batch_sequencing 2).2 1 0 (by norm_num) (by norm_num)⟩

/-!
## Claim C2 — duplicate successor registration

The claim: a second addSuccessor under an already-used label raises a usage
error and leaves the table unchanged.  True of the framework BaseNode,
false of the pocketgraph BaseNode, which only warns and overwrites.
-/

/-- Claim C2, counterexample: in the pocketgraph variant, registering a
second successor under the already-used label "a" raises nothing and the
second successor is installed, replacing the first. -/
theorem c2_counterexample :
    PG.addSuccessor (PG.addSuccessor [] 1 "a") 2 "a" = [("a", 2)] ∧
    lookupSucc (PG.addSuccessor (PG.addSuccessor [] 1 "a") 2 "a") "a" = some 2 := by
  constructor <;> rfl

/-- Claim C2, amended: in the framework variant, a second addSuccessor under
an already-registered label throws and the successor table is unchanged; in
the pocketgraph variant the call only warns and the new successor replaces
the old one under that label. -/
theorem c2_amended_duplicate_successor (t : SuccTable) (nid : Nat)
    (a : ActionLabel) (h : (lookupSucc t a).isSome) :
    FW.addSuccessor t nid a =
      (Except.error ("Action " ++ a ++ " already exists"), t) ∧
    lookupSucc (PG.addSuccessor t nid a) a = some nid :=
  ⟨by simp [FW.addSuccessor, h], pg_addSuccessor_lookup t nid a⟩

/-- Claim C2, witness: the amended statement on a table already holding a
successor under "a". -/
theorem c2_witness :
    FW.addSuccessor [("a", 1)] 2 "a" =
      (Except.error ("Action " ++ "a" ++ " already exists"), [("a", 1)]) ∧
    lookupSucc (PG.addSuccessor [("a", 1)] 2 "a") "a" = some 2 :=
  c2_amended_duplicate_successor [("a", 1)] 2 "a" (by decide)

/-!
## Claim C3 — retry exhaustion

The claim: a retrying unit with maxAttempts = k whose executeCore always
fails, and with no fallback supplied, raises a MaxRetriesExceeded error
carrying the attempt count k after exactly k executeCore invocations.  The
framework RetryNode does exactly this; the pocketgraph Node instead ends by
calling its default fallback, which re-raises the original error of the
last attempt — an error carrying no attempt count.
-/

/-- Claim C3, counterexample: a pocketgraph node with maxRetries = 2 whose
exec always throws "boom" re-raises "boom" itself (after exactly 2 exec
calls); the raised error is not the max-retries error carrying the attempt
count. -/
theorem c3_counterexample :
    PG.nodeExec 2 (fun _ => (Except.error "boom" : Except Err Int)) =
      (some (Except.error "boom"), 2) ∧
    "boom" ≠ "Max retries reached after 2 attempts" := by
  constructor
  · rfl
  · decide

/-- Claim C3, amended: with maxAttempts = k (k at least 1) and executeCore
failing on every attempt, the framework RetryNode raises the max-retries
error carrying the attempt count k after exactly k executeCore calls, while
the pocketgraph Node with no fallback supplied re-raises the original error
of attempt k after exactly k executeCore calls. -/
theorem c3_amended_retry_exhaustion {β : Type} (k : Nat) (e : Nat → Except Err β)
    (errAt : Nat → Err) (hk : 1 ≤ k)
    (hfail : ∀ i, i < k → e i = Except.error (errAt i)) :
    FW.execWrapper k e =
      (Except.error ("Max retries reached after " ++ toString k ++ " attempts"), k) ∧
    PG.nodeExec k e = (some (Except.error (errAt (k - 1))), k) := by
  constructor
  · rw [FW.execWrapper]
    exact fw_retryGo_all_fail e k k 0
      (fun j hj => ⟨errAt j, by simpa using hfail j hj⟩)
  · rw [PG.nodeExec]
    exact pg_execGo_all_fail e k errAt hfail k 0 (by omega) hk

def c3wErr : Nat → Err := fun i => "e" ++ toString i

def c3wExec : Nat → Except Err Int := fun i => Except.error (c3wErr i)

/-- Claim C3, witness: the amended statement at k = 2 with attempt i
failing with error message e-i. -/
theorem c3_witness :
    FW.execWrapper 2 c3wExec =
      (Except.error ("Max retries reached after " ++ toString 2 ++ " attempts"), 2) ∧
    PG.nodeExec 2 c3wExec = (some (Except.error (c3wErr 1)), 2) :=
  c3_amended_retry_exhaustion 2 c3wExec c3wErr (by norm_num) (fun i _ => rfl)

/-!
## Claim C4 — retry success after transient failures
-/

/-- Claim C4: a retrying unit with maxAttempts = k whose executeCore fails
on attempts 1..f and succeeds on attempt f+1 (f < k) returns that success
with no error after exactly f+1 executeCore invocations — in the framework
RetryNode and in the pocketgraph Node alike. -/
theorem c4_retry_success {β : Type} (k f : Nat) (e : Nat → Except Err β)
    (b : β) (hf : f < k)
    (hfail : ∀ i, i < f → ∃ msg, e i = Except.error msg)
    (hsucc : e f = Except.ok b) :
    FW.execWrapper k e = (Except.ok b, f + 1) ∧
    PG.nodeExec k e = (some (Except.ok b), f + 1) := by
  constructor
  · rw [FW.execWrapper]
    exact fw_retryGo_success e k b f 0 k hf
      (fun j hj => by simpa using hfail j hj) (by simpa using hsucc)
  · rw [PG.nodeExec]
    exact pg_execGo_success e k b f 0 k (by omega) hf
      (fun j hj => by simpa using hfail j hj) (by simpa using hsucc)

def c4wExec : Nat → Except Err Int :=
  fun i => if i = 0 then Except.error "x" else Except.ok 7

/-- Claim C4, witness: maxAttempts 2, one failing attempt, success on the
second, two executeCore calls. -/
theorem c4_witness :
    FW.execWrapper 2 c4wExec = (Except.ok 7, 2) ∧
    PG.nodeExec 2 c4wExec = (some (Except.ok 7), 2) :=
  c4_retry_success 2 1 c4wExec 7 (by norm_num)
    (fun i hi => ⟨"x", by
      have h0 : i = 0 := by omega
      subst h0
      rfl⟩)
    rfl

/-!
## Claim C5 — parameter merging for nested runs

The claim: the effective parameter set pushed into inner units is always
the child-over-parent merge of ancestor and child parameters.  The
typescript AsyncFlow and the pocketgraph BatchFlow do merge; the framework
Flow.orchestrate instead replaces its own parameters wholesale by an
explicitly passed set, dropping every ancestor key absent from it.
-/

/-- Claim C5, counterexample: a framework flow whose own parameters bind
"a" to 1, orchestrating with the explicit parameter set binding only "b",
pushes a set in which "a" is absent — not the claimed union of ancestor
parameters — while the merge would keep it. -/
theorem c5_counterexample :
    lookupParam (FW.effectiveParams [("a", 1)] (some [("b", 2)])) "a" = none ∧
    lookupParam (mergeParams [("a", 1)] [("b", 2)]) "a" = some 1 := by
  constructor <;> rfl

/-- Claim C5, amended: in the typescript AsyncFlow orchestrator and in the
pocketgraph BatchFlow, the effective parameter set is the merge of the
orchestrator parameters with the child parameter set — a child binding
overrides a parent binding for the same key and parent keys absent from the
child survive; in the framework Flow.orchestrate an explicitly passed
parameter set replaces the orchestrator parameters wholesale. -/
theorem c5_amended_param_merge (parent child : Params) (k : String) :
    FW.effectiveParams parent (some child) = child ∧
    TSA.mergedParams parent (some child) = mergeParams parent child ∧
    PG.batchItemParams parent child = mergeParams parent child ∧
    (∀ v, lookupParam child k = some v →
      lookupParam (mergeParams parent child) k = some v) ∧
    (lookupParam child k = none →
      lookupParam (mergeParams parent child) k = lookupParam parent k) :=
  ⟨rfl, rfl, rfl,
   fun _ hv => lookupParam_append_some _ _ _ _ hv,
   fun hn => lookupParam_append_none _ _ _ hn⟩

/-- Claim C5, witness: the amended merge behaviour on concrete parameter
sets — the child binding wins and the parent-only binding survives. -/
theorem c5_witness :
    lookupParam (mergeParams [("a", 1), ("b", 9)] [("b", 2)]) "b" = some 2 ∧
    lookupParam (mergeParams [("a", 1), ("b", 9)] [("b", 2)]) "a" =
      lookupParam [("a", 1), ("b", 9)] "a" :=
  ⟨(c5_amended_param_merge [("a", 1), ("b", 9)] [("b", 2)] "b").2.2.2.1 2 rfl,
   (c5_amended_param_merge [("a", 1), ("b", 9)] [("b", 2)] "a").2.2.2.2 rfl⟩

/-!
## Claim C6 — missing outcome label

The claim: a missing/undefined outcome label is treated exactly as
"default" when looking up the successor.  True of the pocketgraph and
typescript orchestrators (action || "default"); false of the framework,
whose getSuccessor looks the undefined label up as is, finds nothing, and
ends the traversal even when a successor is registered under "default".
-/

/-- Claim C6, counterexample: a framework node with a successor registered
under "default" whose run returned an undefined label — the successor
lookup yields nothing, not the lookup under "default". -/
theorem c6_counterexample :
    FW.getSuccessorA [("default", 1)] none = none ∧
    lookupSucc [("default", 1)] "default" = some 1 := by
  constructor <;> rfl

/-- Claim C6, amended: the pocketgraph and typescript orchestrators treat a
missing/undefined outcome label exactly as "default" when selecting the
successor; the framework orchestrator looks the undefined label up as is,
finds no successor, and so ends the traversal. -/
theorem c6_amended_default_label (t : SuccTable) :
    PG.getNextNode t none = lookupSucc t "default" ∧
    TSA.getNextNode t none = lookupSucc t "default" ∧
    FW.getSuccessorA t none = none :=
  ⟨rfl, rfl, rfl⟩

/-!
## Claim C7 — per-run isolation copy

The claim: the per-run copy deep-copies the node config (so a mutation
through the copy never reaches the original) while preserving the identity
of the successor targets.  True of the framework BaseNode.clone; false of
the pocketgraph per-run copy, which is an Object.assign shallow copy
sharing the very params object with the original.
-/

def c7Heap : Heap := heapWrite (fun _ => []) 0 [("k", 1)]

def c7Node : ONode := { paramsRef := 0, succ := [("d", 5)] }

/-- Claim C7, counterexample: the pocketgraph per-run copy of a node holds
the same params object as the original, so after a mutation through the
copy the original reads the mutated contents — deep-copy isolation fails. -/
theorem c7_counterexample :
    (PG.shallowCopy c7Node).paramsRef = c7Node.paramsRef ∧
    c7Heap c7Node.paramsRef = [("k", 1)] ∧
    heapWrite c7Heap (PG.shallowCopy c7Node).paramsRef [("k", 2)]
      c7Node.paramsRef = [("k", 2)] ∧
    ([("k", 2)] : Params) ≠ [("k", 1)] := by
  refine ⟨rfl, rfl, rfl, ?_⟩
  decide

/-- Claim C7, amended: the framework clone places a copy of the config
contents at a fresh address — so a mutation through the copy leaves the
original config untouched — and its successor table carries the identical
successor entries; the pocketgraph per-run copy instead shares the config
object with the original (its orchestrator only ever rebinds it via
setParams). -/
theorem c7_amended_isolation_copy (h : Heap) (o : ONode) (fresh : Nat)
    (q : Params) (hne : fresh ≠ o.paramsRef) :
    ((FW.clone h o fresh).2).succ = o.succ ∧
    (FW.clone h o fresh).1 ((FW.clone h o fresh).2).paramsRef = h o.paramsRef ∧
    heapWrite (FW.clone h o fresh).1 ((FW.clone h o fresh).2).paramsRef q
      o.paramsRef = h o.paramsRef ∧
    (PG.shallowCopy o).paramsRef = o.paramsRef := by
  refine ⟨rfl, ?_, ?_, rfl⟩
  · simp [FW.clone, heapWrite]
  · simp [FW.clone, heapWrite, Ne.symm hne]

/-- Claim C7, witness: the amended statement at a concrete heap, node and
fresh address. -/
theorem c7_witness :
    ((FW.clone c7Heap c7Node 1).2).succ = c7Node.succ ∧
    (FW.clone c7Heap c7Node 1).1 ((FW.clone c7Heap c7Node 1).2).paramsRef =
      c7Heap c7Node.paramsRef ∧
    heapWrite (FW.clone c7Heap c7Node 1).1
      ((FW.clone c7Heap c7Node 1).2).paramsRef [("q", 9)] c7Node.paramsRef =
      c7Heap c7Node.paramsRef ∧
    (PG.shallowCopy c7Node).paramsRef = c7Node.paramsRef :=
  c7_amended_isolation_copy c7Heap c7Node 1 [("q", 9)] (by decide)

/-!
## Claim C8 — the concrete math flow
-/

/-- Claim C8: running the framework orchestrator over the chain
AddNode 5 then MultiplyNode 2 then SubtractNode 3, wired on the default
label, from shared state with value 10, terminates and leaves value 27,
that is (10 + 5) * 2 - 3. -/
theorem c8_math_flow :
    FW.flowRun FW.mathGraph 0 [] 5 (some 10) =
      some (Except.ok (some FW.DEFAULT_ACTION, some 27)) := by
  rfl

/-!
## Claim C9 — graph termination is not an error
-/

/-- Claim C9: in both orchestrators, when the label returned by the current
node has no registered successor on that node, the traversal ends normally
with the state the node produced — no error is raised. -/
theorem c9_graph_termination {σ : Type} (g : FGraph σ) (sp : Params)
    (fp : Option Params) (nid : Nat) (s s1 s2 : σ)
    (a1 a2 : Option ActionLabel) (p2 : Params) (fuel1 fuel2 : Nat)
    (hrun1 : (g nid).run (FW.effectiveParams sp fp) s = Except.ok (a1, s1))
    (hsucc1 : FW.getSuccessorA (g nid).succ a1 = none)
    (hrun2 : (g nid).run p2 s = Except.ok (a2, s2))
    (hsucc2 : PG.getNextNode (g nid).succ a2 = none) :
    FW.orchestrate g sp fp (fuel1 + 1) (some nid) s = some (Except.ok s1) ∧
    PG.orch g p2 (fuel2 + 1) (some nid) s = some (Except.ok s2) := by
  constructor
  · simp [FW.orchestrate, hrun1, hsucc1]
  · simp [PG.orch, hrun2, hsucc2]

def c9Graph : FGraph Int := fun _ =>
  { run := fun _ s => Except.ok (some "stop", s + 1), succ := [("other", 0)] }

/-- Claim C9, witness: a node returning the label "stop", which has no
successor (only "other" is wired), ends both traversals normally. -/
theorem c9_witness :
    FW.orchestrate c9Graph [] none 1 (some 0) 0 = some (Except.ok 1) ∧
    PG.orch c9Graph [] 1 (some 0) 0 = some (Except.ok 1) :=
  c9_graph_termination c9Graph [] none 0 0 1 1 (some "stop") (some "stop")
    [] 0 0 rfl rfl rfl rfl

/-!
## Claim C10 — a completed Flow run always returns "default"
-/

/-- Claim C10: whenever a framework Flow embedded as a node of a parent
graph completes its run, the outcome label it hands the parent is
"default", whatever labels its inner units returned; hence the successor
the parent looks up after it is exactly the one registered under
"default". -/
theorem c10_flow_returns_default {σ : Type} (g : FGraph σ) (startId fuel : Nat)
    (tbl : SuccTable) (p : Params) (s : σ) (a : Option ActionLabel) (s1 : σ)
    (h : (FW.asNode g startId fuel tbl).run p s = Except.ok (a, s1)) :
    a = some FW.DEFAULT_ACTION ∧
    ∀ t : SuccTable, FW.getSuccessorA t a = lookupSucc t FW.DEFAULT_ACTION := by
  have ha : a = some FW.DEFAULT_ACTION := by
    cases horch : FW.orchestrate g p none fuel (some startId) s with
    | none => simp [FW.asNode, horch] at h
    | some r =>
        cases r with
        | error e => simp [FW.asNode, horch] at h
        | ok s2 =>
            simp [FW.asNode, horch] at h
            exact h.1.symm
  subst ha
  exact ⟨rfl, fun t => rfl⟩

def c10Graph : FGraph Int := fun _ =>
  { run := fun _ s => Except.ok (some "x", s), succ := [] }

/-- Claim C10, witness: a completed nested flow whose single inner node
returned the label "x" still hands the parent "default". -/
theorem c10_witness :
    (some FW.DEFAULT_ACTION : Option ActionLabel) = some FW.DEFAULT_ACTION ∧
    ∀ t : SuccTable,
      FW.getSuccessorA t (some FW.DEFAULT_ACTION) =
        lookupSucc t FW.DEFAULT_ACTION :=
  c10_flow_returns_default c10Graph 0 1 [] [] 5 (some FW.DEFAULT_ACTION) 5 rfl
